import Mathlib

/-!
Verification of the content-addressing and structured-edit engine of the
`quip_python` library (`src/quip_python/quip_python.py`).  Each definition is a
shallow embedding of the corresponding Python function; Python exceptions are
modelled with `Except String`, Python `None` with `Option`, and Python strings
with Lean `String` (ASCII model for the case conversions the code uses).
-/

namespace QuipPython

/-! ### Python string primitives (ASCII model) -/

/-- `str.lower` on one character, ASCII model. -/
def pyLowerChar (c : Char) : Char :=
  if 'A' ≤ c ∧ c ≤ 'Z' then Char.ofNat (c.toNat + 32) else c

/-- `str.lower`, ASCII model. -/
def pyLower (s : String) : String := ⟨s.data.map pyLowerChar⟩

/-- `str.upper` on one character, ASCII model. -/
def pyUpperChar (c : Char) : Char :=
  if 'a' ≤ c ∧ c ≤ 'z' then Char.ofNat (c.toNat - 32) else c

/-- `str.upper`, ASCII model. -/
def pyUpper (s : String) : String := ⟨s.data.map pyUpperChar⟩

def isAsciiDigitChar (c : Char) : Bool := '0' ≤ c && c ≤ '9'

/-- `str.isdigit`, ASCII model: nonempty and all decimal digits. -/
def pyIsDigit (s : String) : Bool := !s.data.isEmpty && s.data.all isAsciiDigitChar

/-- `int(s)` on a digit string. -/
def pyToNat (s : String) : Nat := s.data.foldl (fun acc c => acc * 10 + (c.toNat - 48)) 0

/-- `s.replace(old, new)` for single-character `old`/`new`, as used with
`.replace(";", "_")` in `edit_thread` and `edit_range`. -/
def pyReplaceChar (s : String) (oldc newc : Char) : String :=
  ⟨s.data.map (fun c => if c = oldc then newc else c)⟩

/-- Python `str(x)` applied to a value that is either a string or `None`. -/
def pyStrOfOpt : Option String → String
  | none => "None"
  | some s => s

/-- Python list indexing `l[i]`, with negative-index semantics; `none` models
an `IndexError`. -/
def pyIndex (l : List α) (i : Int) : Option α :=
  let j : Int := if i < 0 then (l.length : Int) + i else i
  if 0 ≤ j then l[j.toNat]? else none

/-- Python `dict.get(k)` over an insertion-ordered association list. -/
def pyDictGet (d : List (String × String)) (k : String) : Option String :=
  (d.find? (fun p => p.1 == k)).map Prod.snd

/-- Python `d[k] = v` over an insertion-ordered association list: replace the
value in place when the key exists, otherwise append the pair at the end. -/
def pyDictInsert (d : List (String × String)) (k v : String) : List (String × String) :=
  if d.any (fun p => p.1 == k) then
    d.map (fun p => if p.1 == k then (p.1, v) else p)
  else d ++ [(k, v)]

/-! ### `QuipSpreadSheet._get_col_name_index`

```python
def _get_col_name_index(self, header_items, header, default=0):
    if header:
        header = str(header)
        lower_headers = [str(h).lower() for h in header_items]
        if header in header_items:
            return header_items.index(header)
        elif header.lower() in lower_headers:
            return lower_headers.index(header.lower())
        elif header.isdigit():
            return int(header)
        elif len(header) == 1:
            char = ord(header.upper())
            if ord('A') < char < ord('Z'):
                return char - ord('A') + 1
        else:
            pass
    return default
```

Header items come from `_get_row_tree_values` and may be `None`, hence
`List (Option String)`; the `default` argument is `0` or `None` at the call
sites, hence `Option Nat`. -/

def getColNameIndex (headerItems : List (Option String)) (header : String)
    (default : Option Nat) : Option Nat :=
  if header ≠ "" then
    let lowerHeaders := headerItems.map (fun h => pyLower (pyStrOfOpt h))
    if some header ∈ headerItems then
      some (headerItems.indexOf (some header))
    else if pyLower header ∈ lowerHeaders then
      some (lowerHeaders.indexOf (pyLower header))
    else if pyIsDigit header then
      some (pyToNat header)
    else if header.length = 1 then
      let c := ((pyUpper header).data.headD ' ').toNat
      if 'A'.toNat < c ∧ c < 'Z'.toNat then some (c - 'A'.toNat + 1) else default
    else default
  else default

/-! ### `QuipDocument` list-item resolution

```python
def _get_first_list_item_section_id(self, section_id):
    items = self._get_list_item_section_ids(section_id)
    return items[0].attrib["id"] if items else None

def _get_last_list_item_section_id(self, section_id):
    items = self._get_list_item_section_ids(section_id)
    return items[-1].attrib["id"] if items else None

def _get_nth_list_item_section_id(self, list_section_id=None, idx=None):
    items = self._get_list_item_section_ids(list_section_id)
    return items[idx].attrib["id"] if items else None
```

Each list item is modelled by its optional `id` attribute; a missing `id`
makes `attrib["id"]` raise a `KeyError`. -/

def getNthListItemSectionId (items : List (Option String)) (idx : Int) :
    Except String (Option String) :=
  if items.isEmpty then .ok none else
    match pyIndex items idx with
    | none => .error "IndexError"
    | some none => .error "KeyError"
    | some (some s) => .ok (some s)

def getFirstListItemSectionId (items : List (Option String)) :
    Except String (Option String) :=
  if items.isEmpty then .ok none else
    match pyIndex items 0 with
    | none => .error "IndexError"
    | some none => .error "KeyError"
    | some (some s) => .ok (some s)

def getLastListItemSectionId (items : List (Option String)) :
    Except String (Option String) :=
  if items.isEmpty then .ok none else
    match pyIndex items (-1) with
    | none => .error "IndexError"
    | some none => .error "KeyError"
    | some (some s) => .ok (some s)

/-! ### `QuipSpreadSheet._dict_to_html`

```python
def _dict_to_html(self, updates_dct=None, sheet_name=None):
    sheet_tree = self._sheet_name_to_tree(sheet_name)
    headers = self._get_sheet_tree_col_names(sheet_tree)[1:]
    indexed_items = {}
    extra_items = []
    for head, val in updates_dct.items():
        index = self._get_col_name_index(headers, head, default=None)
        if index is None or index in indexed_items:
            extra_items.append(val)
        else:
            indexed_items[index] = val
    cells = []
    if indexed_items:
        for i in range(max(indexed_items.keys()) + 1):
            if i in indexed_items:
                cells.append(indexed_items[i])
            elif len(extra_items):
                cells.append(extra_items.pop(0))
            else:
                cells.append("")
    cells.extend(extra_items)
    return "<tr>%s</tr>" % "".join(["<td>%s</td>" % cell for cell in cells])
```

`indexed_items` is modelled as an insertion-ordered association list;
`dictToHtmlCells` is the cell-list construction for a given (already tailed)
header sequence, and `renderRow` the final markup string. -/

/-- `index in indexed_items` / `indexed_items[index]` over the association
list modelling of the Python dict. -/
def lookupA (l : List (Nat × String)) (k : Nat) : Option String :=
  (l.find? (fun p => p.1 == k)).map Prod.snd

/-- The `for head, val in updates_dct.items()` loop: partition the updates
into resolved (key → value, first resolution wins) and unresolved values in
supplied order. -/
def splitUpdates (headers : List (Option String)) :
    List (Nat × String) → List (String × String) → List (Nat × String) × List String
  | indexed, [] => (indexed, [])
  | indexed, (head, val) :: rest =>
    match getColNameIndex headers head none with
    | none =>
      let r := splitUpdates headers indexed rest
      (r.1, val :: r.2)
    | some i =>
      if (lookupA indexed i).isSome then
        let r := splitUpdates headers indexed rest
        (r.1, val :: r.2)
      else splitUpdates headers (indexed ++ [(i, val)]) rest

/-- `max(indexed_items.keys())` (over a nonempty association list). -/
def maxKey (l : List (Nat × String)) : Nat := l.foldr (fun p m => max p.1 m) 0

/-- The `for i in range(max(...) + 1)` loop followed by
`cells.extend(extra_items)`: place resolved values at their index, pop
unresolved values into gaps, pad with `""`, then append leftover extras. -/
def fillCells (indexed : List (Nat × String)) : Nat → Nat → List String → List String
  | _, 0, extras => extras
  | i, n + 1, extras =>
    match lookupA indexed i with
    | some v => v :: fillCells indexed (i + 1) n extras
    | none =>
      match extras with
      | e :: es => e :: fillCells indexed (i + 1) n es
      | [] => "" :: fillCells indexed (i + 1) n []

/-- The list of cells `_dict_to_html` constructs for the given header
sequence and updates. -/
def dictToHtmlCells (headers : List (Option String)) (updates : List (String × String)) :
    List String :=
  let r := splitUpdates headers [] updates
  if r.1.isEmpty then r.2
  else fillCells r.1 0 (maxKey r.1 + 1) r.2

/-- `"<tr>%s</tr>" % "".join(["<td>%s</td>" % cell for cell in cells])`. -/
def renderRow (cells : List String) : String :=
  "<tr>" ++ String.join (cells.map (fun c => "<td>" ++ c ++ "</td>")) ++ "</tr>"

/-- The values the fill loop reads out of `indexed` over the index window
`[i, i + n)`, in index order. -/
def hits (indexed : List (Nat × String)) : Nat → Nat → List String
  | _, 0 => []
  | i, n + 1 =>
    match lookupA indexed i with
    | some v => v :: hits indexed (i + 1) n
    | none => hits indexed (i + 1) n

/-! ### Sheet trees

A spreadsheet's content tree, restricted to what the sheet methods traverse:
each `<tr>` found by `iterfind(".//tr")` in document order, each row's direct
children with their tag, `id` attribute, `itertext()` result, the `src`
attributes of `<img>` descendants (`cell.iter("img")`), and the `style`
attribute. -/

structure SheetCell where
  tag : String
  id : Option String
  texts : List String
  images : List (Option String)
  style : Option String
deriving DecidableEq

structure SheetRow where
  id : Option String
  cells : List SheetCell
deriving DecidableEq

structure SheetTree where
  id : Option String
  title : Option String
  rows : List SheetRow
deriving DecidableEq

/-- `_get_row_tree_values`: `[(list(x.itertext()) or [None])[0] for x in row_tree]`. -/
def getRowTreeValues (r : SheetRow) : List (Option String) :=
  r.cells.map (fun c => c.texts.head?)

/-- `_get_sheet_tree_col_names`: values of the first `<tr>`; raises
`IndexError` when the sheet has no rows. -/
def getSheetTreeColNames (t : SheetTree) : Except String (List (Option String)) :=
  match t.rows.head? with
  | none => .error "IndexError(rows)"
  | some r => .ok (getRowTreeValues r)

/-- The row scan of `_find_row_tree`: skip rows shorter than the index and
non-`td` cells; compare `list(cell.itertext())[0].lower()` (unguarded first
text node) with the searched value. -/
def findRowTreeGo (index : Nat) (value : String) : List SheetRow → Except String (Option SheetRow)
  | [] => .ok none
  | row :: rest =>
    if h : index < row.cells.length then
      if (row.cells[index]).tag ≠ "td" then findRowTreeGo index value rest
      else
        match (row.cells[index]).texts.head? with
        | none => .error "IndexError(itertext)"
        | some t =>
          if pyLower t = pyLower value then .ok (some row)
          else findRowTreeGo index value rest
    else findRowTreeGo index value rest

/-- `QuipSpreadSheet._find_row_tree`. -/
def findRowTree (sheet : SheetTree) (header value : String) : Except String (Option SheetRow) :=
  match getSheetTreeColNames sheet with
  | .error e => .error e
  | .ok headers =>
    let index := (getColNameIndex headers header (some 0)).getD 0
    findRowTreeGo index value sheet.rows

/-- `_sheet_name_to_tree`: first element carrying the given `title`
attribute (only tables carry titles), or the first table when unnamed. -/
def sheetNameToTree (tables : List SheetTree) : Option String → Option SheetTree
  | some name => tables.find? (fun t => t.title == some name)
  | none => tables.head?

/-- `_get_nth_row_section_id`: `items[idx].attrib["id"] if items else None`. -/
def getNthRowSectionId (sheet : SheetTree) (idx : Int) : Except String (Option String) :=
  if sheet.rows.isEmpty then .ok none
  else
    match pyIndex sheet.rows idx with
    | none => .error "IndexError"
    | some row =>
      match row.id with
      | none => .error "KeyError"
      | some s => .ok (some s)

/-! ### Edit requests -/

def AFTER_SECTION : Nat := 2
def BEFORE_SECTION : Nat := 3
def REPLACE_SECTION : Nat := 4
def DELETE_SECTION : Nat := 5

/-- One positional edit request handed to `edit_thread` by the sheet
methods. -/
structure EditReq where
  content : String
  format : String
  sectionId : Option String
  location : Nat
deriving DecidableEq

/-- `_list_to_html`: one `<tr>` of `<td>` cells per row, joined. -/
def listToHtml (rows : List (List String)) : String :=
  String.join (rows.map renderRow)

/-- `_dict_to_html` proper: resolves the header tree (first table when the
sheet name is omitted, as in `_sheet_add_row`), drops the first (index)
column name, and renders the reconciled cells. -/
def dictToHtml (tables : List SheetTree) (updatesDct : List (String × String))
    (sheetName : Option String) : Except String String :=
  match sheetNameToTree tables sheetName with
  | none => .error "AttributeError"
  | some tree =>
    match getSheetTreeColNames tree with
    | .error e => .error e
    | .ok colNames => .ok (renderRow (dictToHtmlCells (colNames.drop 1) updatesDct))

/-- The two row-update payload forms `_sheet_add_row` accepts. -/
inductive RowUpdate where
  | list (cells : List String)
  | dict (updates : List (String × String))
deriving DecidableEq

/-- `QuipSpreadSheet._sheet_add_row`, up to the edit request it submits:
resolve the target row's section id (nth row, or first/last for the
prepend/append forms), then build the row markup — note the `_dict_to_html`
call passes no sheet name, so dict content is reconciled against the FIRST
table's headers. -/
def sheetAddRowRequest (tables : List SheetTree) (rowUpdate : RowUpdate)
    (sheetName : Option String) (rowIdx : Option Int) (location : Option Nat) :
    Except String EditReq :=
  match sheetNameToTree tables sheetName with
  | none => .error "AttributeError"
  | some sheetTree =>
    let sidLoc : Except String (Option String × Nat) :=
      match rowIdx with
      | none =>
        if location = some BEFORE_SECTION then
          (getNthRowSectionId sheetTree 1).map (fun s => (s, BEFORE_SECTION))
        else
          (getNthRowSectionId sheetTree (-1)).map (fun s => (s, AFTER_SECTION))
      | some idx =>
        (getNthRowSectionId sheetTree idx).map
          (fun s => (s, match location with | none => AFTER_SECTION | some l => l))
    match sidLoc with
    | .error e => .error e
    | .ok (sid, loc) =>
      match rowUpdate with
      | .list cells => .ok ⟨listToHtml [cells], "html", sid, loc⟩
      | .dict updates =>
        match dictToHtml tables updates none with
        | .error e => .error e
        | .ok content => .ok ⟨content, "html", sid, loc⟩

/-- `QuipSpreadSheet.sheet_search_update_cells`, modelled down to the edit
requests it would submit.  The first component of the result is the final
state of the caller-supplied `updates_dct` (the Python function mutates it in
place in the not-found branch before appending the new row), the second the
outcome: the list of issued edit requests or the propagated exception. -/
def sheetSearchUpdateCells (tables : List SheetTree) (sheetName : String)
    (searchDct updatesDct : List (String × String)) :
    List (String × String) × Except String (List EditReq) :=
  match searchDct.head? with
  | none => (updatesDct, .error "IndexError")
  | some (header, _) =>
    let value := (pyDictGet searchDct header).getD ""
    match sheetNameToTree tables (some sheetName) with
    | none => (updatesDct, .error "AttributeError")
    | some sheetTree =>
      match getSheetTreeColNames sheetTree with
      | .error e => (updatesDct, .error e)
      | .ok headers =>
        match findRowTree sheetTree header value with
        | .error e => (updatesDct, .error e)
        | .ok (some rowTree) =>
          let sectionIds := rowTree.cells.map (fun c => c.id.getD "")
          let reqs := updatesDct.filterMap (fun hv =>
            let index := (getColNameIndex headers hv.1 (some 0)).getD 0
            if index = 0 ∨ sectionIds.length ≤ index ∨ sectionIds.getD index "" = "" then
              none
            else
              some ⟨hv.2, "markdown", some (sectionIds.getD index ""), REPLACE_SECTION⟩)
          (updatesDct, .ok reqs)
        | .ok none =>
          let updates2 := pyDictInsert updatesDct header value
          (updates2,
            (sheetAddRowRequest tables (.dict updates2) (some sheetName) none none).map
              (fun r => [r]))

/-! ### `QuipSpreadSheet.parse_sheet_contents` -/

structure CellJson where
  id : Option String
  content : Option String
  color : Option String
deriving DecidableEq

structure RowJson where
  id : Option String
  cells : List (Option String × CellJson)
deriving DecidableEq

structure SheetJson where
  id : Option String
  headers : List (Option String)
  rows : List RowJson
deriving DecidableEq

/-- First position where `pat` occurs as a contiguous sublist, as
`str.find`. -/
def findSub : List Char → List Char → Option Nat
  | [], pat => if pat.isEmpty then some 0 else none
  | c :: rest, pat =>
    if pat.isPrefixOf (c :: rest) then some 0 else (findSub rest pat).map (· + 1)

/-- Python slice `s[a:b]` for nonnegative bounds. -/
def pySliceStr (s : String) (a b : Nat) : String := ⟨(s.data.drop a).take (b - a)⟩

/-- `style[sharp + 1:sharp + 7]` whenever the style string contains the
literal `background-color:#` marker. -/
def extractColor (style : Option String) : Option String :=
  match style with
  | none => none
  | some s =>
    if (findSub s.data "background-color:#".data).isSome then
      let sharp := (findSub s.data "#".data).getD 0
      some (pySliceStr s (sharp + 1) (sharp + 7))
    else none

/-- `.replace(u"​", "")`. -/
def stripZws (s : String) : String := ⟨s.data.filter (fun c => c ≠ Char.ofNat 0x200B)⟩

/-- `value["cells"][k] = v` with Python dict semantics over an
insertion-ordered association list. -/
def pyDictInsertCell (d : List (Option String × CellJson)) (k : Option String)
    (v : CellJson) : List (Option String × CellJson) :=
  if d.any (fun p => p.1 == k) then d.map (fun p => if p.1 == k then (p.1, v) else p)
  else d ++ [(k, v)]

/-- One `td` cell of `parse_sheet_contents`: image cells report
`images[0].attrib.get("src")`; text cells take `list(cell.itertext())[0]`
(unguarded) stripped of zero-width spaces; the header key is
`sheet["headers"][i]` (unguarded). -/
def parseSheetCell (headers : List (Option String)) (i : Nat) (cell : SheetCell) :
    Except String (Option String × CellJson) :=
  let contentE : Except String (Option String) :=
    match cell.images.head? with
    | some src => .ok src
    | none =>
      match cell.texts.head? with
      | none => .error "IndexError(itertext)"
      | some t => .ok (some (stripZws t))
  match contentE with
  | .error e => .error e
  | .ok content =>
    let color := extractColor cell.style
    match headers[i]? with
    | none => .error "IndexError(headers)"
    | some hk => .ok (hk, ⟨cell.id, content, color⟩)

/-- The `for i, cell in enumerate(row)` loop: `i` counts every child,
non-`td` children are skipped. -/
def parseRowCells (headers : List (Option String)) :
    Nat → List SheetCell → List (Option String × CellJson) →
    Except String (List (Option String × CellJson))
  | _, [], acc => .ok acc
  | i, cell :: rest, acc =>
    if cell.tag ≠ "td" then parseRowCells headers (i + 1) rest acc
    else
      match parseSheetCell headers i cell with
      | .error e => .error e
      | .ok (hk, cj) => parseRowCells headers (i + 1) rest (pyDictInsertCell acc hk cj)

/-- The row loop of `parse_sheet_contents`; rows without any `td` cell are
dropped. -/
def parseSheetRows (headers : List (Option String)) :
    List SheetRow → Except String (List RowJson)
  | [] => .ok []
  | row :: rest =>
    match parseRowCells headers 0 row.cells [] with
    | .error e => .error e
    | .ok cells =>
      match parseSheetRows headers rest with
      | .error e => .error e
      | .ok rjs =>
        if cells.isEmpty then .ok rjs
        else .ok (⟨row.id, cells⟩ :: rjs)

/-- `QuipSpreadSheet.parse_sheet_contents` over a resolved sheet tree. -/
def parseSheetContents (sheet : SheetTree) : Except String SheetJson :=
  match getSheetTreeColNames sheet with
  | .error e => .error e
  | .ok headers =>
    match parseSheetRows headers sheet.rows with
    | .error e => .error e
    | .ok rows => .ok ⟨sheet.id, headers, rows⟩

/-! ### Thread state, corruption handling and edits

`QuipThread.__init__` sets the identity fields from the thread metadata,
fetches the markup, and parses it inside `try/except`: a parse failure is
caught (a message is printed) and leaves the tree absent.  Tree parsing by
`lxml` is external and is modelled by an abstract `parse` function; `none`
models a parse failure. -/

structure DocNode where
  id : Option String
deriving DecidableEq

structure DocTree where
  nodes : List DocNode
deriving DecidableEq

structure ThreadMeta where
  id : Option String
  title : Option String
  authorId : Option String
  createdUsec : Option Nat
  updatedUsec : Option Nat
deriving DecidableEq

structure ThreadState where
  id : Option String
  title : Option String
  authorId : Option String
  createdUsec : Option Nat
  updatedUsec : Option Nat
  contentHtml : Option String
  contentTree : Option DocTree
deriving DecidableEq

/-- The identity/parse part of `QuipThread.__init__`: fields are set before
the guarded parse, a failed parse leaves the tree absent without raising. -/
def initThread (meta : ThreadMeta) (fetchedHtml : Option String)
    (parse : String → Option DocTree) : ThreadState :=
  { id := meta.id, title := meta.title, authorId := meta.authorId,
    createdUsec := meta.createdUsec, updatedUsec := meta.updatedUsec,
    contentHtml := fetchedHtml,
    contentTree := fetchedHtml.bind parse }

/-- `_get_section_elementTree`, the representative content-addressed method:
with the tree absent any access fails (the "document corrupted"
condition). -/
def getSectionElementTree (st : ThreadState) (sectionId : String) :
    Except String (Option DocNode) :=
  match st.contentTree with
  | none => .error "CorruptionError"
  | some t => .ok (t.nodes.find? (fun n => n.id == some sectionId))

/-- `reload_content`: take the supplied markup when truthy, else re-fetch;
re-parse, a failure leaving the tree absent. -/
def reloadContent (st : ThreadState) (html : Option String)
    (refetched : Option String) (parse : String → Option DocTree) : ThreadState :=
  let newHtml := match html with
    | some s => if s ≠ "" then some s else refetched
    | none => refetched
  { st with contentHtml := newHtml, contentTree := newHtml.bind parse }

/-- The parsed value of an edit response body: a JSON dict (with an optional
`html` member) or anything else. -/
inductive RespVal where
  | dict (html : Option String)
  | nonDict
deriving DecidableEq

/-- `QuipDocument.doc_edit_content`: issue the edit (the remote outcome is
the `remote` argument; an exception propagates before any local mutation),
and on a dict response reload from its `html` member. -/
def docEditContent (st : ThreadState) (remote : Except String (Nat × RespVal))
    (refetched : Option String) (parse : String → Option DocTree) :
    Except String Nat × ThreadState :=
  match remote with
  | .error e => (.error e, st)
  | .ok (status, .dict html) => (.ok status, reloadContent st html refetched parse)
  | .ok (status, .nonDict) => (.ok status, st)

/-- Opaque stand-in for a pandas dataframe derived from the markup. -/
structure DataFrame where
  raw : String
deriving DecidableEq

/-- The spreadsheet variant's state: markup, parsed tables, and the derived
sheet structures. -/
structure SpreadState where
  contentHtml : Option String
  contentTree : Option (List SheetTree)
  sheetNames : List String
  sheetDataframes : List (String × DataFrame)
  sheetJson : List (String × SheetJson)
deriving DecidableEq

/-- `QuipSpreadSheet.reload_content`: replace the markup, re-parse the
tables, and re-derive the sheet structures (the derivations from the markup
are external and abstracted). -/
def reloadSpreadContent (st : SpreadState) (html : Option String)
    (refetched : Option String)
    (parseTables : String → Option (List SheetTree))
    (deriveDF : Option String → List (String × DataFrame))
    (deriveJson : Option String → List (String × SheetJson)) : SpreadState :=
  let newHtml := match html with
    | some s => if s ≠ "" then some s else refetched
    | none => refetched
  { contentHtml := newHtml,
    contentTree := newHtml.bind parseTables,
    sheetNames := st.sheetDataframes.map Prod.fst,
    sheetDataframes := deriveDF newHtml,
    sheetJson := deriveJson newHtml }

/-- `QuipSpreadSheet.sheet_edit_content`, same shape as the document
variant. -/
def sheetEditContent (st : SpreadState) (remote : Except String (Nat × RespVal))
    (refetched : Option String)
    (parseTables : String → Option (List SheetTree))
    (deriveDF : Option String → List (String × DataFrame))
    (deriveJson : Option String → List (String × SheetJson)) :
    Except String Nat × SpreadState :=
  match remote with
  | .error e => (.error e, st)
  | .ok (status, .dict html) =>
    (.ok status, reloadSpreadContent st html refetched parseTables deriveDF deriveJson)
  | .ok (status, .nonDict) => (.ok status, st)

/-! ### `QuipThread._get_thread_html`: cursor pagination

```python
html_content = ''
next_cursor = None
while (next_cursor != ''):
    ..., response_json = self._fetch_json(..., cursor=next_cursor)
    html_content = html_content + response_json.get('html')
    next_cursor = response_json['response_metadata'].get('next_cursor')
return "<html>" + html_content + "</html>" if len(html_content) > 0 else None
```

`pages` is the sequence of `(html, next_cursor)` responses the server returns
to the successive fetches. -/

def getThreadHtmlLoop : List (String × String) → String → String
  | [], acc => acc
  | page :: rest, acc =>
    if page.2 = "" then acc ++ page.1
    else getThreadHtmlLoop rest (acc ++ page.1)

def getThreadHtml (pages : List (String × String)) : Option String :=
  let htmlContent := getThreadHtmlLoop pages ""
  if htmlContent.length > 0 then some ("<html>" ++ htmlContent ++ "</html>") else none

/-! ### Anchor sanitization in `edit_thread` / `edit_range`

```python
section_id = None if not section_id else section_id.replace(";", "_")
```
followed by `_fetch_json`'s post-data filter `if v or isinstance(v, int)`,
which drops falsy non-integer fields from the transmitted form. -/

def sanitizeSectionId (sectionId : Option String) : Option String :=
  match sectionId with
  | none => none
  | some s => if s = "" then none else some (pyReplaceChar s ';' '_')

/-- The `_fetch_json` post-data filter restricted to one optional string
field. -/
def cleanPostField (v : Option String) : Option String :=
  match v with
  | none => none
  | some s => if s = "" then none else some s

/-- The `section_id` value `edit_thread` transmits. -/
def editThreadSectionId (sectionId : Option String) : Option String :=
  cleanPostField (sanitizeSectionId sectionId)

/-- The `document_range` value `edit_range` transmits (same sanitization). -/
def editRangeDocumentRange (documentRange : Option String) : Option String :=
  cleanPostField (sanitizeSectionId documentRange)

/-- The concatenation of the html fragments of a page sequence, in order. -/
def concatHtml (pages : List (String × String)) : String :=
  (pages.map Prod.fst).foldr (fun a b => a ++ b) ""

/-! ### Concrete sample data used by the closed witness theorems -/

def sampleHeaderRow : SheetRow :=
  ⟨some "r0", [⟨"td", some "h0", [""], [], none⟩,
    ⟨"td", some "h1", ["customer"], [], none⟩,
    ⟨"td", some "h2", ["Billed"], [], none⟩]⟩

def sampleDataRow : SheetRow :=
  ⟨some "r1", [⟨"td", some "c0", ["1"], [], none⟩,
    ⟨"td", some "c1", ["Other"], [], none⟩,
    ⟨"td", some "c2", ["5/1/2014"], [], none⟩]⟩

def sampleSheet : SheetTree := ⟨some "t1", some "Table1", [sampleHeaderRow, sampleDataRow]⟩

def sampleTables : List SheetTree := [sampleSheet]

/-- A sheet whose every non-image `td` cell has a text node, but whose data
row holds an image-only `td` cell with no text node. -/
def imageCellSheet : SheetTree :=
  ⟨some "s", some "S", [⟨some "hr", [⟨"td", some "h0", ["X"], [], none⟩]⟩,
    ⟨some "dr", [⟨"td", some "d0", [], [some "img1"], none⟩]⟩]⟩

/-- A sheet with a non-image `td` cell carrying no text node. -/
def textlessCellSheet : SheetTree :=
  ⟨some "s2", some "S2", [⟨some "hr2", [⟨"td", some "h0", ["X"], [], none⟩]⟩,
    ⟨some "dr2", [⟨"td", some "d0", [], [], none⟩]⟩]⟩

def sampleParse : String → Option DocTree :=
  fun s => if s = "good" then some ⟨[⟨some "n1"⟩]⟩ else none

def sampleMeta : ThreadMeta := ⟨some "Tid", some "Title", some "author", some 1, some 2⟩

end QuipPython

namespace QuipPython

/-! ### Claim C1: column-name resolution -/

/-- Claim C1 fails as stated: against the header sequence `["Date","Amount"]`
(no textual match) the key `"A"` does not resolve to index `1`; the code's
guard `ord('A') < char < ord('Z')` is strict on the left, so `"A"` falls
through to the caller-supplied default. -/
theorem C1_counterexample :
    getColNameIndex [some "Date", some "Amount"] "A" (some 0) = some 0 ∧
    getColNameIndex [some "Date", some "Amount"] "A" (some 0) ≠ some 1 ∧
    getColNameIndex [some "Date", some "Amount"] "A" none = none := by
  refine ⟨by decide, by decide, by decide⟩

/-- Claim C1 (amended): resolution tries, in order, exact case-sensitive match,
case-insensitive match, literal numeric value, then the alphabetic mapping
`char - ord('A') + 1` — but the alphabetic branch applies only when the
letter's code is strictly between those of `'A'` and `'Z'` (computed index
strictly between 1 and 26), so the keys `"A"`/`"a"` and `"Z"`/`"z"` fall
through to the caller-supplied default. -/
theorem C1_amended (items : List (Option String)) (h : String) (d : Option Nat) :
    (h ≠ "" → some h ∈ items →
      getColNameIndex items h d = some (items.indexOf (some h))) ∧
    (h ≠ "" → some h ∉ items →
      pyLower h ∈ items.map (fun x => pyLower (pyStrOfOpt x)) →
      getColNameIndex items h d =
        some ((items.map (fun x => pyLower (pyStrOfOpt x))).indexOf (pyLower h))) ∧
    (some h ∉ items →
      pyLower h ∉ items.map (fun x => pyLower (pyStrOfOpt x)) →
      pyIsDigit h = true →
      getColNameIndex items h d = some (pyToNat h)) ∧
    (some h ∉ items →
      pyLower h ∉ items.map (fun x => pyLower (pyStrOfOpt x)) →
      pyIsDigit h = false → h.length = 1 →
      'A'.toNat < ((pyUpper h).data.headD ' ').toNat →
      ((pyUpper h).data.headD ' ').toNat < 'Z'.toNat →
      getColNameIndex items h d =
        some (((pyUpper h).data.headD ' ').toNat - 'A'.toNat + 1)) ∧
    (some h ∉ items →
      pyLower h ∉ items.map (fun x => pyLower (pyStrOfOpt x)) →
      pyIsDigit h = false → h.length = 1 →
      ¬('A'.toNat < ((pyUpper h).data.headD ' ').toNat ∧
        ((pyUpper h).data.headD ' ').toNat < 'Z'.toNat) →
      getColNameIndex items h d = d) := by
  have hne1 : pyIsDigit h = true → h ≠ "" := by
    intro hd he
    subst he
    simp [pyIsDigit] at hd
  have hne2 : h.length = 1 → h ≠ "" := by
    intro hl he
    subst he
    simp at hl
  refine ⟨?_, ?_, ?_, ?_, ?_⟩
  · intro hne hmem
    simp only [getColNameIndex, if_pos hne, if_pos hmem]
  · intro hne hnmem hlmem
    simp only [getColNameIndex, if_pos hne, if_neg hnmem, if_pos hlmem]
  · intro hnmem hnlmem hdig
    simp only [getColNameIndex, if_pos (hne1 hdig), if_neg hnmem, if_neg hnlmem,
      if_pos hdig]
  · intro hnmem hnlmem hdig hlen hlo hhi
    simp only [getColNameIndex, if_pos (hne2 hlen), if_neg hnmem, if_neg hnlmem,
      hdig, Bool.false_eq_true, if_false, if_pos hlen]
    rw [if_pos (And.intro hlo hhi)]
  · intro hnmem hnlmem hdig hlen hnrange
    simp only [getColNameIndex, if_pos (hne2 hlen), if_neg hnmem, if_neg hnlmem,
      hdig, Bool.false_eq_true, if_false, if_pos hlen]
    rw [if_neg hnrange]

/-- Concrete instantiations of the amended C1 theorem: `"Amount"` matches
exactly at index 1, and `"B"` maps alphabetically to index 2. -/
theorem C1_witness :
    getColNameIndex [some "Date", some "Amount"] "Amount" none = some 1 ∧
    getColNameIndex [some "Date", some "Amount"] "B" none = some 2 := by
  constructor
  · exact ((C1_amended [some "Date", some "Amount"] "Amount" none).1
      (by decide) (by decide)).trans (by decide)
  · exact ((C1_amended [some "Date", some "Amount"] "B" none).2.2.2.1
      (by decide) (by decide) (by decide) (by decide) (by decide)
      (by decide)).trans (by decide)

/-! ### Claim C2: list-item resolution -/

/-- Claim C2 fails as stated: an out-of-range nth index on a non-empty list
raises an `IndexError` instead of yielding a null anchor. -/
theorem C2_counterexample :
    getNthListItemSectionId [some "a"] 5 = .error "IndexError" ∧
    getNthListItemSectionId [some "a"] 5 ≠ .ok none := by
  constructor
  · rfl
  · rw [show getNthListItemSectionId [some "a"] 5 = Except.error "IndexError" from rfl]
    intro hcon
    exact Except.noConfusion hcon

/-- Claim C2 (amended): on an empty list all three resolvers return a null
anchor without raising; on a non-empty list, first behaves as nth 0, last as
nth (-1), an in-range (Python-style, possibly negative) nth index returns that
item's anchor, and an out-of-range nth index raises `IndexError` rather than
returning a null anchor. -/
theorem C2_amended (items : List (Option String)) (idx : Int) :
    (getFirstListItemSectionId items = getNthListItemSectionId items 0) ∧
    (getLastListItemSectionId items = getNthListItemSectionId items (-1)) ∧
    (items = [] →
      getNthListItemSectionId items idx = .ok none) ∧
    (∀ s, pyIndex items idx = some (some s) →
      getNthListItemSectionId items idx = .ok (some s)) ∧
    (items ≠ [] → pyIndex items idx = none →
      getNthListItemSectionId items idx = .error "IndexError") := by
  refine ⟨rfl, rfl, ?_, ?_, ?_⟩
  · intro he
    subst he
    rfl
  · intro s hs
    have hne : items.isEmpty = false := by
      cases items with
      | nil => simp [pyIndex] at hs
      | cons a l => rfl
    simp only [getNthListItemSectionId, hne, Bool.false_eq_true, if_false, hs]
  · intro hne hidx
    have hne' : items.isEmpty = false := by
      cases items with
      | nil => exact absurd rfl hne
      | cons a l => rfl
    simp only [getNthListItemSectionId, hne', Bool.false_eq_true, if_false, hidx]

/-- Concrete instantiation of the amended C2 theorem: on the two-item list
`[a, b]`, nth (-1) resolves to `b` and nth 7 raises `IndexError`. -/
theorem C2_witness :
    getNthListItemSectionId [some "a", some "b"] (-1) = .ok (some "b") ∧
    getNthListItemSectionId [some "a", some "b"] 7 = .error "IndexError" := by
  constructor
  · exact (C2_amended [some "a", some "b"] (-1)).2.2.2.1 "b" (by decide)
  · exact (C2_amended [some "a", some "b"] 7).2.2.2.2 (by decide) (by decide)

/-! ### Association-list lemmas for the row builder -/

theorem lookupA_cons (k : Nat) (v : String) (l : List (Nat × String)) (j : Nat) :
    lookupA ((k, v) :: l) j = if j = k then some v else lookupA l j := by
  by_cases hj : j = k
  · subst hj
    simp [lookupA, List.find?]
  · simp only [lookupA, List.find?]
    have : (k == j) = false := by
      simp [Ne.symm hj]
    rw [this, if_neg hj]

theorem lookupA_eq_none_iff (l : List (Nat × String)) (k : Nat) :
    lookupA l k = none ↔ k ∉ l.map Prod.fst := by
  induction l with
  | nil => simp [lookupA]
  | cons a l ih =>
    obtain ⟨ka, va⟩ := a
    rw [lookupA_cons]
    by_cases hk : k = ka
    · subst hk
      simp
    · simp [hk, ih]

theorem mem_of_lookupA_some {l : List (Nat × String)} {k : Nat} {v : String}
    (h : lookupA l k = some v) : (k, v) ∈ l := by
  induction l with
  | nil => simp [lookupA] at h
  | cons a l ih =>
    obtain ⟨ka, va⟩ := a
    rw [lookupA_cons] at h
    by_cases hk : k = ka
    · subst hk
      rw [if_pos rfl] at h
      cases h
      exact List.mem_cons_self _ _
    · rw [if_neg hk] at h
      exact List.mem_cons_of_mem _ (ih h)

theorem le_maxKey (l : List (Nat × String)) : ∀ p ∈ l, p.1 ≤ maxKey l := by
  induction l with
  | nil =>
    intro p hp
    simp at hp
  | cons a l ih =>
    intro p hp
    rcases List.mem_cons.mp hp with h | h
    · subst h
      show p.1 ≤ max p.1 (maxKey l)
      exact le_max_left _ _
    · show p.1 ≤ max a.1 (maxKey l)
      exact le_trans (ih p h) (le_max_right _ _)

theorem filterMap_insert_perm (v : String) (k : Nat) (f g : Nat → Option String)
    (hf : ∀ j, f j = if j = k then some v else g j) (hg : g k = none) :
    ∀ js : List Nat, js.Nodup → k ∈ js →
      List.Perm (js.filterMap f) (v :: js.filterMap g) := by
  intro js
  induction js with
  | nil =>
    intro _ hk
    exact absurd hk (List.not_mem_nil k)
  | cons j js ih =>
    intro hnd hk
    by_cases hj : j = k
    · have hnin : k ∉ js := by
        rw [← hj]
        exact (List.nodup_cons.mp hnd).1
      have hcongr : js.filterMap f = js.filterMap g := by
        apply List.filterMap_congr
        intro x hx
        have hxne : ¬ x = k := fun hxk => hnin (hxk ▸ hx)
        rw [hf x, if_neg hxne]
      have hfj : f j = some v := by rw [hf j, if_pos hj]
      have hgj : g j = none := by
        rw [hj]
        exact hg
      simp only [List.filterMap_cons, hfj, hgj, hcongr]
      exact List.Perm.refl _
    · have hfj : f j = g j := by rw [hf j, if_neg hj]
      have hk' : k ∈ js := by
        rcases List.mem_cons.mp hk with h | h
        · exact absurd h.symm hj
        · exact h
      have ihp := ih (List.nodup_cons.mp hnd).2 hk'
      cases hgj : g j with
      | none =>
        simp only [List.filterMap_cons, hfj, hgj]
        exact ihp
      | some w =>
        simp only [List.filterMap_cons, hfj, hgj]
        exact (ihp.cons w).trans (List.Perm.swap v w _)

theorem filterMap_lookupA_nil (js : List Nat) : js.filterMap (lookupA []) = [] := by
  induction js with
  | nil => rfl
  | cons j js ih =>
    rw [List.filterMap_cons]
    simp only [lookupA, List.find?, Option.map_none']
    exact ih

theorem filterMap_lookupA_perm :
    ∀ (ind : List (Nat × String)) (js : List Nat), js.Nodup →
      (ind.map Prod.fst).Nodup → (∀ p ∈ ind, p.1 ∈ js) →
      List.Perm (js.filterMap (lookupA ind)) (ind.map Prod.snd) := by
  intro ind
  induction ind with
  | nil =>
    intro js _ _ _
    rw [filterMap_lookupA_nil]
    exact List.Perm.refl _
  | cons a ind ih =>
    intro js hjnd hnd hmem
    obtain ⟨k, v⟩ := a
    have hnd' : (k :: ind.map Prod.fst).Nodup := by simpa using hnd
    have hknd : k ∉ ind.map Prod.fst := (List.nodup_cons.mp hnd').1
    have hgk : lookupA ind k = none := (lookupA_eq_none_iff ind k).mpr hknd
    have hkj : k ∈ js := hmem (k, v) (List.mem_cons_self _ _)
    have hstep := filterMap_insert_perm v k (lookupA ((k, v) :: ind)) (lookupA ind)
      (fun j => lookupA_cons k v ind j) hgk js hjnd hkj
    have hrest := ih js hjnd (List.nodup_cons.mp hnd').2
      (fun p hp => hmem p (List.mem_cons_of_mem _ hp))
    exact hstep.trans (hrest.cons v)

theorem hits_eq_filterMap (indexed : List (Nat × String)) :
    ∀ (n i : Nat), hits indexed i n = (List.range' i n).filterMap (lookupA indexed) := by
  intro n
  induction n with
  | zero =>
    intro i
    rfl
  | succ n ihn =>
    intro i
    conv_rhs => rw [show List.range' i (n + 1) = i :: List.range' (i + 1) n from rfl]
    rw [List.filterMap_cons]
    cases hlk : lookupA indexed i with
    | none => simp only [hits, hlk, ihn (i + 1)]
    | some v => simp only [hits, hlk, ihn (i + 1)]

theorem hits_perm (indexed : List (Nat × String)) (stop : Nat)
    (hnd : (indexed.map Prod.fst).Nodup) (hlt : ∀ p ∈ indexed, p.1 < stop) :
    List.Perm (hits indexed 0 stop) (indexed.map Prod.snd) := by
  rw [hits_eq_filterMap, show List.range' 0 stop = List.range stop from
    (List.range_eq_range' stop).symm]
  exact filterMap_lookupA_perm indexed (List.range stop) (List.nodup_range stop) hnd
    (fun p hp => List.mem_range.mpr (hlt p hp))

theorem fillCells_perm (indexed : List (Nat × String)) :
    ∀ (n i : Nat) (extras : List String), ∃ k,
      List.Perm (fillCells indexed i n extras)
        (hits indexed i n ++ extras ++ List.replicate k "") := by
  intro n
  induction n with
  | zero =>
    intro i extras
    exact ⟨0, by simp [fillCells, hits]⟩
  | succ n ihn =>
    intro i extras
    cases hlk : lookupA indexed i with
    | some v =>
      obtain ⟨k, hp⟩ := ihn (i + 1) extras
      refine ⟨k, ?_⟩
      simp only [fillCells, hits, hlk, List.cons_append]
      exact hp.cons v
    | none =>
      cases extras with
      | cons e es =>
        obtain ⟨k, hp⟩ := ihn (i + 1) es
        refine ⟨k, ?_⟩
        simp only [fillCells, hits, hlk]
        refine (hp.cons e).trans ?_
        have hmid : List.Perm
            (e :: (hits indexed (i + 1) n ++ (es ++ List.replicate k "")))
            (hits indexed (i + 1) n ++ e :: (es ++ List.replicate k "")) :=
          List.perm_middle.symm
        simpa [List.append_assoc] using hmid
      | nil =>
        obtain ⟨k, hp⟩ := ihn (i + 1) []
        refine ⟨k + 1, ?_⟩
        simp only [fillCells, hits, hlk]
        refine (hp.cons "").trans ?_
        have hmid : List.Perm
            ("" :: (hits indexed (i + 1) n ++ List.replicate k ""))
            (hits indexed (i + 1) n ++ "" :: List.replicate k "") :=
          List.perm_middle.symm
        simpa [List.append_assoc, List.replicate_succ] using hmid

theorem fillCells_getD (indexed : List (Nat × String)) :
    ∀ (n i j : Nat) (extras : List String) (v : String), j < n →
      lookupA indexed (i + j) = some v →
      (fillCells indexed i n extras).getD j "" = v := by
  intro n
  induction n with
  | zero =>
    intro i j extras v hj
    exact absurd hj (Nat.not_lt_zero j)
  | succ n ihn =>
    intro i j extras v hj hlk
    cases j with
    | zero =>
      rw [Nat.add_zero] at hlk
      simp only [fillCells, hlk]
      rfl
    | succ j =>
      have hj' : j < n := Nat.lt_of_succ_lt_succ hj
      have hlk' : lookupA indexed (i + 1 + j) = some v := by
        rw [show i + 1 + j = i + (j + 1) by omega]
        exact hlk
      cases hlk0 : lookupA indexed i with
      | some w =>
        simp only [fillCells, hlk0]
        show (fillCells indexed (i + 1) n extras).getD j "" = v
        exact ihn (i + 1) j extras v hj' hlk'
      | none =>
        cases extras with
        | cons e es =>
          simp only [fillCells, hlk0]
          show (fillCells indexed (i + 1) n es).getD j "" = v
          exact ihn (i + 1) j es v hj' hlk'
        | nil =>
          simp only [fillCells, hlk0]
          show (fillCells indexed (i + 1) n []).getD j "" = v
          exact ihn (i + 1) j [] v hj' hlk'

theorem splitUpdates_nodup (headers : List (Option String)) :
    ∀ (ups : List (String × String)) (ind : List (Nat × String)),
      (ind.map Prod.fst).Nodup →
      (((splitUpdates headers ind ups).1).map Prod.fst).Nodup := by
  intro ups
  induction ups with
  | nil =>
    intro ind h
    exact h
  | cons hv rest ih =>
    intro ind h
    obtain ⟨head, val⟩ := hv
    cases hidx : getColNameIndex headers head none with
    | none =>
      simp only [splitUpdates, hidx]
      exact ih ind h
    | some i =>
      simp only [splitUpdates, hidx]
      by_cases hlk : (lookupA ind i).isSome
      · rw [if_pos hlk]
        exact ih ind h
      · rw [if_neg hlk]
        apply ih
        have hi : i ∉ ind.map Prod.fst := by
          rw [← lookupA_eq_none_iff]
          cases h' : lookupA ind i with
          | none => rfl
          | some w =>
            rw [h'] at hlk
            simp at hlk
        rw [List.map_append]
        simp [List.nodup_append, h, hi]

theorem splitUpdates_perm (headers : List (Option String)) :
    ∀ (ups : List (String × String)) (ind : List (Nat × String)),
      List.Perm
        ((splitUpdates headers ind ups).1.map Prod.snd ++ (splitUpdates headers ind ups).2)
        (ind.map Prod.snd ++ ups.map Prod.snd) := by
  intro ups
  induction ups with
  | nil =>
    intro ind
    simp [splitUpdates]
  | cons hv rest ih =>
    intro ind
    obtain ⟨head, val⟩ := hv
    cases hidx : getColNameIndex headers head none with
    | none =>
      simp only [splitUpdates, hidx, List.map_cons]
      exact List.perm_middle.trans (((ih ind).cons val).trans List.perm_middle.symm)
    | some i =>
      simp only [splitUpdates, hidx, List.map_cons]
      by_cases hlk : (lookupA ind i).isSome
      · rw [if_pos hlk]
        exact List.perm_middle.trans (((ih ind).cons val).trans List.perm_middle.symm)
      · rw [if_neg hlk]
        refine (ih (ind ++ [(i, val)])).trans ?_
        simp only [List.map_append, List.map_cons, List.map_nil, List.append_assoc,
          List.singleton_append, List.cons_append, List.nil_append]
        exact List.Perm.refl _

/-! ### Claim C3: the dict-based row builder never drops a value -/

theorem dictToHtmlCells_perm (headers : List (Option String))
    (updates : List (String × String)) :
    ∃ k, List.Perm (dictToHtmlCells headers updates)
        (updates.map Prod.snd ++ List.replicate k "") ∧
      (dictToHtmlCells headers updates).length = updates.length + k ∧
      ∀ i v, lookupA (splitUpdates headers [] updates).1 i = some v →
        (dictToHtmlCells headers updates).getD i "" = v := by
  have hsplit := splitUpdates_perm headers updates []
  rw [List.map_nil, List.nil_append] at hsplit
  by_cases hemp : (splitUpdates headers [] updates).1.isEmpty
  · have h1 : (splitUpdates headers [] updates).1 = [] := by
      cases hsp : (splitUpdates headers [] updates).1 with
      | nil => rfl
      | cons a l =>
        rw [hsp] at hemp
        simp at hemp
    have hcells : dictToHtmlCells headers updates = (splitUpdates headers [] updates).2 := by
      simp [dictToHtmlCells, hemp]
    rw [h1, List.map_nil, List.nil_append] at hsplit
    refine ⟨0, ?_, ?_, ?_⟩
    · rw [hcells, List.replicate_zero, List.append_nil]
      exact hsplit
    · rw [hcells, hsplit.length_eq]
      simp
    · intro i v hlkv
      rw [h1] at hlkv
      simp [lookupA] at hlkv
  · have hnd := splitUpdates_nodup headers updates [] (by simp)
    have hbd : ∀ p ∈ (splitUpdates headers [] updates).1,
        p.1 < maxKey (splitUpdates headers [] updates).1 + 1 :=
      fun p hp => Nat.lt_succ_of_le (le_maxKey _ p hp)
    have hhits := hits_perm (splitUpdates headers [] updates).1
      (maxKey (splitUpdates headers [] updates).1 + 1) hnd hbd
    obtain ⟨k, hfill⟩ := fillCells_perm (splitUpdates headers [] updates).1
      (maxKey (splitUpdates headers [] updates).1 + 1) 0
      (splitUpdates headers [] updates).2
    have hcells : dictToHtmlCells headers updates =
        fillCells (splitUpdates headers [] updates).1 0
          (maxKey (splitUpdates headers [] updates).1 + 1)
          (splitUpdates headers [] updates).2 := by
      simp [dictToHtmlCells, hemp]
    have hperm : List.Perm (dictToHtmlCells headers updates)
        (updates.map Prod.snd ++ List.replicate k "") := by
      rw [hcells]
      refine hfill.trans ?_
      exact ((hhits.append_right _).trans hsplit).append_right _
    refine ⟨k, hperm, ?_, ?_⟩
    · rw [hperm.length_eq]
      simp
    · intro i v hlkv
      have hmem := mem_of_lookupA_some hlkv
      have hilt := hbd (i, v) hmem
      rw [hcells]
      refine fillCells_getD _ _ 0 i _ v hilt ?_
      rw [Nat.zero_add]
      exact hlkv

/-- Claim C3: for every header sequence and update mapping, the cell list the
row builder constructs is a permutation of the supplied values plus some
padding of empty strings — every supplied value appears exactly once (counting
multiplicity), the number of cells is the number of values plus the padding
(hence at least the number of values), and each resolved value sits at its
resolved column index. -/
theorem C3_dict_row_preserves_values (headers : List (Option String))
    (updates : List (String × String)) :
    ∃ k, List.Perm (dictToHtmlCells headers updates)
        (updates.map Prod.snd ++ List.replicate k "") ∧
      (dictToHtmlCells headers updates).length = updates.length + k ∧
      ∀ i v, lookupA (splitUpdates headers [] updates).1 i = some v →
        (dictToHtmlCells headers updates).getD i "" = v :=
  dictToHtmlCells_perm headers updates

/-! ### String helper lemmas -/

theorem string_append_assoc (a b c : String) : a ++ b ++ c = a ++ (b ++ c) := by
  obtain ⟨la⟩ := a
  obtain ⟨lb⟩ := b
  obtain ⟨lc⟩ := c
  show String.mk (la ++ lb ++ lc) = String.mk (la ++ (lb ++ lc))
  rw [List.append_assoc]

theorem string_empty_append (a : String) : "" ++ a = a := by
  obtain ⟨la⟩ := a
  show String.mk ([] ++ la) = String.mk la
  rw [List.nil_append]

theorem string_append_empty (a : String) : a ++ "" = a := by
  obtain ⟨la⟩ := a
  show String.mk (la ++ []) = String.mk la
  rw [List.append_nil]

theorem string_data_eq_nil_iff (s : String) : s.data = [] ↔ s = "" := by
  constructor
  · intro h
    obtain ⟨ls⟩ := s
    have h' : ls = [] := h
    subst h'
    rfl
  · intro h
    subst h
    rfl

theorem string_length_pos_of_ne {s : String} (h : s ≠ "") : s.length > 0 := by
  obtain ⟨ls⟩ := s
  cases ls with
  | nil => exact absurd rfl h
  | cons a l =>
    show 0 < l.length + 1
    exact Nat.succ_pos _

theorem pyReplaceChar_of_not_mem {s : String} {oldc newc : Char} (h : oldc ∉ s.data) :
    pyReplaceChar s oldc newc = s := by
  have hmap : ∀ l : List Char, oldc ∉ l →
      l.map (fun c => if c = oldc then newc else c) = l := by
    intro l hl
    induction l with
    | nil => rfl
    | cons a l ih =>
      have hne : ¬ a = oldc := by
        intro hae
        apply hl
        rw [← hae]
        exact List.mem_cons_self a l
      rw [List.map_cons, ih (fun ha => hl (List.mem_cons_of_mem _ ha)), if_neg hne]
  show String.mk (s.data.map _) = s
  rw [hmap s.data h]

theorem pyReplaceChar_ne_empty {s : String} (h : s ≠ "") (oldc newc : Char) :
    pyReplaceChar s oldc newc ≠ "" := by
  intro hcon
  apply h
  rw [← string_data_eq_nil_iff] at hcon ⊢
  have hmap : s.data.map (fun c => if c = oldc then newc else c) = [] := hcon
  exact List.map_eq_nil_iff.mp hmap

/-! ### Claim C8: anchor sanitization -/

/-- Claim C8: an edit request's non-empty anchor identifier is transmitted
with every `';'` replaced by `'_'` (so an identifier without `';'` is
transmitted unchanged), and an absent or empty identifier is transmitted as
absent — for both `edit_thread`'s `section_id` and `edit_range`'s
`document_range`. -/
theorem C8_anchor_sanitization (s : String) :
    (s ≠ "" → editThreadSectionId (some s) = some (pyReplaceChar s ';' '_') ∧
      editRangeDocumentRange (some s) = some (pyReplaceChar s ';' '_')) ∧
    (s ≠ "" → ';' ∉ s.data →
      editThreadSectionId (some s) = some s ∧ editRangeDocumentRange (some s) = some s) ∧
    (editThreadSectionId none = none ∧ editThreadSectionId (some "") = none) ∧
    (editRangeDocumentRange none = none ∧ editRangeDocumentRange (some "") = none) := by
  have hmain : ∀ t : String, t ≠ "" →
      cleanPostField (sanitizeSectionId (some t)) = some (pyReplaceChar t ';' '_') := by
    intro t ht
    simp only [sanitizeSectionId, if_neg ht, cleanPostField]
    rw [if_neg (pyReplaceChar_ne_empty ht ';' '_')]
  refine ⟨fun h => ⟨hmain s h, hmain s h⟩, fun h hnot => ?_, ⟨rfl, rfl⟩, ⟨rfl, rfl⟩⟩
  constructor
  · rw [show editThreadSectionId (some s) = some (pyReplaceChar s ';' '_') from hmain s h,
      pyReplaceChar_of_not_mem hnot]
  · rw [show editRangeDocumentRange (some s) = some (pyReplaceChar s ';' '_') from hmain s h,
      pyReplaceChar_of_not_mem hnot]

/-- Concrete instantiation of C8: `"12;34"` is transmitted as `"12_34"`, and
an identifier without `';'` unchanged. -/
theorem C8_witness :
    editThreadSectionId (some "12;34") = some "12_34" ∧
    editThreadSectionId (some "1234") = some "1234" := by
  constructor
  · rw [((C8_anchor_sanitization "12;34").1 (by decide)).1]
    rfl
  · exact ((C8_anchor_sanitization "1234").2.1 (by decide) (by decide)).1

/-! ### Claim C7: cursor-paginated content fetch -/

theorem concatHtml_cons (p : String × String) (l : List (String × String)) :
    concatHtml (p :: l) = p.1 ++ concatHtml l := rfl

theorem getThreadHtmlLoop_eq (lastPage : String × String) (hlast : lastPage.2 = "") :
    ∀ front : List (String × String), (∀ p ∈ front, p.2 ≠ "") →
      ∀ acc, getThreadHtmlLoop (front ++ [lastPage]) acc =
        acc ++ concatHtml (front ++ [lastPage]) := by
  intro front
  induction front with
  | nil =>
    intro _ acc
    rw [List.nil_append]
    unfold getThreadHtmlLoop
    rw [if_pos hlast, concatHtml_cons]
    show acc ++ lastPage.1 = acc ++ (lastPage.1 ++ concatHtml [])
    rw [show concatHtml [] = "" from rfl, string_append_empty]
  | cons page rest ih =>
    intro hfront acc
    have hc : page.2 ≠ "" := hfront page (List.mem_cons_self _ _)
    rw [List.cons_append]
    unfold getThreadHtmlLoop
    rw [if_neg hc, ih (fun p hp => hfront p (List.mem_cons_of_mem _ hp)) (acc ++ page.1),
      concatHtml_cons, string_append_assoc]

/-- Claim C7: the cursor loop concatenates the returned fragments in order
until the empty cursor; the result is the concatenation wrapped in an
`<html>` envelope when some fragment was non-empty, and absent when the
concatenation is empty. -/
theorem C7_cursor_pagination (front : List (String × String)) (lastPage : String × String)
    (hfront : ∀ p ∈ front, p.2 ≠ "") (hlast : lastPage.2 = "") :
    (concatHtml (front ++ [lastPage]) = "" →
      getThreadHtml (front ++ [lastPage]) = none) ∧
    (concatHtml (front ++ [lastPage]) ≠ "" →
      getThreadHtml (front ++ [lastPage]) =
        some ("<html>" ++ concatHtml (front ++ [lastPage]) ++ "</html>")) := by
  have hloop : getThreadHtmlLoop (front ++ [lastPage]) "" = concatHtml (front ++ [lastPage]) := by
    rw [getThreadHtmlLoop_eq lastPage hlast front hfront "", string_empty_append]
  constructor
  · intro hc
    unfold getThreadHtml
    rw [hloop, hc]
    rfl
  · intro hc
    unfold getThreadHtml
    rw [hloop, if_pos (string_length_pos_of_ne hc)]

/-- Concrete instantiation of C7: fragments `"<p>a</p>"`, `"<p>b</p>"` with a
final empty cursor yield `"<html><p>a</p><p>b</p></html>"`. -/
theorem C7_witness :
    getThreadHtml [("<p>a</p>", "c1"), ("<p>b</p>", "")] =
      some "<html><p>a</p><p>b</p></html>" := by
  have h := (C7_cursor_pagination [("<p>a</p>", "c1")] ("<p>b</p>", "")
    (by decide) rfl).2 (by decide)
  rw [show [("<p>a</p>", "c1")] ++ [(("<p>b</p>" : String), ("" : String))] =
    [("<p>a</p>", "c1"), ("<p>b</p>", "")] from rfl] at h
  rw [h]
  rfl

/-! ### Claim C5: failed edits leave local state unchanged -/

/-- Claim C5: when the remote edit request fails, the exception propagates
and no local state changes — the content html, the cached content tree, and
the derived sheet structures are exactly as before the call, for both the
document and the spreadsheet edit paths. -/
theorem C5_failed_edit_preserves_state (st : ThreadState) (sst : SpreadState)
    (e : String) (refetched : Option String) (parse : String → Option DocTree)
    (parseTables : String → Option (List SheetTree))
    (deriveDF : Option String → List (String × DataFrame))
    (deriveJson : Option String → List (String × SheetJson)) :
    docEditContent st (.error e) refetched parse = (.error e, st) ∧
    sheetEditContent sst (.error e) refetched parseTables deriveDF deriveJson =
      (.error e, sst) :=
  ⟨rfl, rfl⟩

/-! ### Claim C4: corrupted markup yields a degraded state -/

/-- Claim C4: when the fetched markup fails to parse, the thread enters a
degraded state instead of raising fatally: the identity fields set before
parsing remain readable, the content tree is absent, every content-addressed
access fails with the corruption condition, and a subsequent reload with
markup that parses restores the tree and clears the condition. -/
theorem C4_corruption_degraded_state (meta : ThreadMeta) (html : String)
    (refetched : Option String) (parse : String → Option DocTree)
    (hparse : parse html = none) :
    ((initThread meta (some html) parse).id = meta.id ∧
      (initThread meta (some html) parse).title = meta.title ∧
      (initThread meta (some html) parse).createdUsec = meta.createdUsec ∧
      (initThread meta (some html) parse).updatedUsec = meta.updatedUsec) ∧
    (initThread meta (some html) parse).contentTree = none ∧
    (∀ sid, getSectionElementTree (initThread meta (some html) parse) sid =
      .error "CorruptionError") ∧
    (∀ html2 t, parse html2 = some t → html2 ≠ "" →
      (reloadContent (initThread meta (some html) parse) (some html2) refetched
        parse).contentTree = some t ∧
      ∀ sid, ∃ r, getSectionElementTree (reloadContent (initThread meta (some html) parse)
        (some html2) refetched parse) sid = .ok r) := by
  have htree : (initThread meta (some html) parse).contentTree = none := by
    simp [initThread, hparse]
  refine ⟨⟨rfl, rfl, rfl, rfl⟩, htree, ?_, ?_⟩
  · intro sid
    unfold getSectionElementTree
    rw [htree]
  · intro html2 t hp2 hne
    have htree2 : (reloadContent (initThread meta (some html) parse) (some html2) refetched
        parse).contentTree = some t := by
      show (if html2 ≠ "" then some html2 else refetched).bind parse = some t
      rw [if_pos hne]
      exact hp2
    refine ⟨htree2, fun sid => ⟨t.nodes.find? (fun n => n.id == some sid), ?_⟩⟩
    unfold getSectionElementTree
    rw [htree2]

/-- Concrete instantiation of C4: unparseable markup on load leaves the
title readable and the tree absent, content access fails with the corruption
condition, and reloading parseable markup restores the tree. -/
theorem C4_witness :
    (initThread sampleMeta (some "bad") sampleParse).title = some "Title" ∧
    (initThread sampleMeta (some "bad") sampleParse).contentTree = none ∧
    getSectionElementTree (initThread sampleMeta (some "bad") sampleParse) "n1" =
      .error "CorruptionError" ∧
    (reloadContent (initThread sampleMeta (some "bad") sampleParse) (some "good") none
      sampleParse).contentTree = some ⟨[⟨some "n1"⟩]⟩ := by
  have h := C4_corruption_degraded_state sampleMeta "bad" none sampleParse (by decide)
  exact ⟨h.1.2.1, h.2.1, h.2.2.1 "n1",
    (h.2.2.2 "good" ⟨[⟨some "n1"⟩]⟩ (by decide) (by decide)).1⟩

/-! ### Dict lemmas for the upsert path -/

theorem colNames_ok_of_findRowTree_ok {sheet : SheetTree} {header value : String}
    {x : Option SheetRow} (h : findRowTree sheet header value = .ok x) :
    ∃ hs, getSheetTreeColNames sheet = .ok hs := by
  unfold findRowTree at h
  cases hc : getSheetTreeColNames sheet with
  | error e =>
    rw [hc] at h
    exact absurd h (by simp)
  | ok hs => exact ⟨hs, rfl⟩

theorem pyDictInsert_cons_ne (a : String × String) (d : List (String × String)) (k v : String)
    (h : (a.1 == k) = false) :
    pyDictInsert (a :: d) k v = a :: pyDictInsert d k v := by
  unfold pyDictInsert
  simp only [List.any_cons, h, Bool.false_or]
  by_cases hd : d.any (fun p => p.1 == k) = true
  · rw [if_pos hd, if_pos hd, List.map_cons]
    congr 1
    simp [h]
  · rw [if_neg hd, if_neg hd]
    rfl

theorem pyDictGet_pyDictInsert (d : List (String × String)) (k v : String) :
    pyDictGet (pyDictInsert d k v) k = some v := by
  induction d with
  | nil => simp [pyDictInsert, pyDictGet, List.find?]
  | cons a d ih =>
    by_cases hak : (a.1 == k) = true
    · unfold pyDictInsert
      rw [if_pos (by simp [List.any_cons, hak]), List.map_cons, if_pos hak]
      unfold pyDictGet
      simp [List.find?, hak]
    · have hak' : (a.1 == k) = false := by
        rwa [Bool.not_eq_true] at hak
      rw [pyDictInsert_cons_ne a d k v hak']
      simp only [pyDictGet, List.find?, hak']
      exact ih

theorem snd_mem_pyDictInsert (d : List (String × String)) (k v : String) :
    v ∈ (pyDictInsert d k v).map Prod.snd := by
  unfold pyDictInsert
  by_cases h : d.any (fun p => p.1 == k) = true
  · rw [if_pos h]
    obtain ⟨p, hp, hpk⟩ := List.any_eq_true.mp h
    refine List.mem_map.mpr ⟨(p.1, v), ?_, rfl⟩
    refine List.mem_map.mpr ⟨p, hp, ?_⟩
    rw [if_pos hpk]
  · rw [if_neg h, List.map_append]
    exact List.mem_append_right _ (by simp)

theorem snd_mem_pyDictInsert_of_ne (d : List (String × String)) (k v : String)
    (p : String × String) (hp : p ∈ d) (hne : p.1 ≠ k) :
    p.2 ∈ (pyDictInsert d k v).map Prod.snd := by
  unfold pyDictInsert
  by_cases h : d.any (fun q => q.1 == k) = true
  · rw [if_pos h]
    refine List.mem_map.mpr ⟨p, ?_, rfl⟩
    refine List.mem_map.mpr ⟨p, hp, ?_⟩
    rw [if_neg (by simp [hne])]
  · rw [if_neg h]
    exact List.mem_map.mpr ⟨p, List.mem_append_left _ hp, rfl⟩

/-! ### Claim C9: the upsert mutates the caller's updates dict -/

/-- Claim C9: when `sheet_search_update_cells` finds no matching row, it
inserts the search key/value pair into the caller-supplied updates dictionary
in place, so after the call the caller's mapping contains the search
entry. -/
theorem C9_search_mutates_updates (tables : List SheetTree) (sheetName : String)
    (searchH searchV : String) (srest updatesDct : List (String × String))
    (sheetTree : SheetTree)
    (htree : sheetNameToTree tables (some sheetName) = some sheetTree)
    (hfind : findRowTree sheetTree searchH searchV = .ok none) :
    (sheetSearchUpdateCells tables sheetName ((searchH, searchV) :: srest) updatesDct).1 =
      pyDictInsert updatesDct searchH searchV ∧
    pyDictGet (sheetSearchUpdateCells tables sheetName ((searchH, searchV) :: srest)
      updatesDct).1 searchH = some searchV := by
  obtain ⟨shs, hscols⟩ := colNames_ok_of_findRowTree_ok hfind
  have hval : (pyDictGet ((searchH, searchV) :: srest) searchH).getD "" = searchV := by
    simp [pyDictGet, List.find?]
  have hred : (sheetSearchUpdateCells tables sheetName ((searchH, searchV) :: srest)
      updatesDct).1 = pyDictInsert updatesDct searchH searchV := by
    unfold sheetSearchUpdateCells
    simp only [List.head?_cons, htree, hscols, hval, hfind]
  refine ⟨hred, ?_⟩
  rw [hred]
  exact pyDictGet_pyDictInsert updatesDct searchH searchV

/-- Concrete instantiation of C9: searching `customer = Acme` with no match
leaves the caller's updates dict holding the `customer` entry. -/
theorem C9_witness :
    (sheetSearchUpdateCells sampleTables "Table1" [("customer", "Acme")]
      [("Billed", "6/24/2015")]).1 = [("Billed", "6/24/2015"), ("customer", "Acme")] ∧
    pyDictGet (sheetSearchUpdateCells sampleTables "Table1" [("customer", "Acme")]
      [("Billed", "6/24/2015")]).1 "customer" = some "Acme" := by
  have h := C9_search_mutates_updates sampleTables "Table1" "customer" "Acme" []
    [("Billed", "6/24/2015")] sampleSheet rfl rfl
  refine ⟨?_, h.2⟩
  rw [h.1]
  rfl

/-! ### Claim C6: search with no match is an upsert -/

/-- Claim C6: when `sheet_search_update_cells` finds no row matching the
search value (case-insensitively) under the resolved search column, it merges
the search pair into the update mapping and issues exactly one edit: an
append (after the sheet's last row) of a single new row whose cells contain
the searched value and every value of the merged mapping. -/
theorem C6_search_upsert (tables : List SheetTree) (sheetName : String)
    (searchH searchV : String) (srest updatesDct : List (String × String))
    (sheetTree firstTree : SheetTree) (sid : String) (fcols : List (Option String))
    (htree : sheetNameToTree tables (some sheetName) = some sheetTree)
    (hfind : findRowTree sheetTree searchH searchV = .ok none)
    (hlast : getNthRowSectionId sheetTree (-1) = .ok (some sid))
    (hfirst : sheetNameToTree tables none = some firstTree)
    (hfcols : getSheetTreeColNames firstTree = .ok fcols) :
    ∃ k,
      sheetSearchUpdateCells tables sheetName ((searchH, searchV) :: srest) updatesDct =
        (pyDictInsert updatesDct searchH searchV,
         .ok [⟨renderRow (dictToHtmlCells (fcols.drop 1)
            (pyDictInsert updatesDct searchH searchV)), "html", some sid, AFTER_SECTION⟩]) ∧
      List.Perm (dictToHtmlCells (fcols.drop 1) (pyDictInsert updatesDct searchH searchV))
        ((pyDictInsert updatesDct searchH searchV).map Prod.snd ++ List.replicate k "") ∧
      searchV ∈ dictToHtmlCells (fcols.drop 1) (pyDictInsert updatesDct searchH searchV) ∧
      ∀ p ∈ updatesDct, p.1 ≠ searchH →
        p.2 ∈ dictToHtmlCells (fcols.drop 1) (pyDictInsert updatesDct searchH searchV) := by
  obtain ⟨shs, hscols⟩ := colNames_ok_of_findRowTree_ok hfind
  have hval : (pyDictGet ((searchH, searchV) :: srest) searchH).getD "" = searchV := by
    simp [pyDictGet, List.find?]
  have hreq : sheetAddRowRequest tables (.dict (pyDictInsert updatesDct searchH searchV))
      (some sheetName) none none =
      .ok ⟨renderRow (dictToHtmlCells (fcols.drop 1)
        (pyDictInsert updatesDct searchH searchV)), "html", some sid, AFTER_SECTION⟩ := by
    unfold sheetAddRowRequest
    rw [htree]
    simp only [hlast, dictToHtml, hfirst, hfcols, Except.map]
    rw [if_neg (show ¬ (none : Option Nat) = some BEFORE_SECTION from by simp)]
  have hmain : sheetSearchUpdateCells tables sheetName ((searchH, searchV) :: srest)
      updatesDct =
      (pyDictInsert updatesDct searchH searchV,
       .ok [⟨renderRow (dictToHtmlCells (fcols.drop 1)
          (pyDictInsert updatesDct searchH searchV)), "html", some sid, AFTER_SECTION⟩]) := by
    unfold sheetSearchUpdateCells
    simp only [List.head?_cons, htree, hscols, hval, hfind, hreq, Except.map]
  obtain ⟨k, hperm, hlen, hpos⟩ := dictToHtmlCells_perm (fcols.drop 1)
    (pyDictInsert updatesDct searchH searchV)
  refine ⟨k, hmain, hperm, ?_, ?_⟩
  · exact hperm.mem_iff.mpr (List.mem_append_left _
      (snd_mem_pyDictInsert updatesDct searchH searchV))
  · intro p hp hne
    exact hperm.mem_iff.mpr (List.mem_append_left _
      (snd_mem_pyDictInsert_of_ne updatesDct searchH searchV p hp hne))

/-- Concrete instantiation of C6, the spec's scenario: searching
`customer = Acme` against a sheet with no matching row, with updates
`Billed = 6/24/2015`, appends one new row after the last row containing both
values. -/
theorem C6_witness :
    ∃ k,
      sheetSearchUpdateCells sampleTables "Table1" [("customer", "Acme")]
        [("Billed", "6/24/2015")] =
        (pyDictInsert [("Billed", "6/24/2015")] "customer" "Acme",
         .ok [⟨renderRow (dictToHtmlCells ([some "", some "customer",
            some "Billed"].drop 1)
            (pyDictInsert [("Billed", "6/24/2015")] "customer" "Acme")), "html",
            some "r1", AFTER_SECTION⟩]) ∧
      List.Perm (dictToHtmlCells ([some "", some "customer", some "Billed"].drop 1)
          (pyDictInsert [("Billed", "6/24/2015")] "customer" "Acme"))
        ((pyDictInsert [("Billed", "6/24/2015")] "customer" "Acme").map Prod.snd ++
          List.replicate k "") ∧
      "Acme" ∈ dictToHtmlCells ([some "", some "customer", some "Billed"].drop 1)
        (pyDictInsert [("Billed", "6/24/2015")] "customer" "Acme") ∧
      "6/24/2015" ∈ dictToHtmlCells ([some "", some "customer", some "Billed"].drop 1)
        (pyDictInsert [("Billed", "6/24/2015")] "customer" "Acme") := by
  obtain ⟨k, hmain, hperm, hs, hu⟩ := C6_search_upsert sampleTables "Table1" "customer"
    "Acme" [] [("Billed", "6/24/2015")] sampleSheet sampleSheet "r1"
    [some "", some "customer", some "Billed"] rfl rfl rfl rfl rfl
  exact ⟨k, hmain, hperm, hs, hu ("Billed", "6/24/2015") (by simp) (by decide)⟩

/-! ### Claim C10: unguarded first-text-node access -/

theorem parseSheetCell_no_text_error (headers : List (Option String)) (i : Nat)
    (cell : SheetCell) (hc : cell.images = [] → cell.texts ≠ []) :
    parseSheetCell headers i cell ≠ .error "IndexError(itertext)" := by
  unfold parseSheetCell
  cases himg : cell.images with
  | cons a l =>
    cases hh : headers[i]? with
    | none => simp [himg, hh]
    | some hk => simp [himg, hh]
  | nil =>
    cases htx : cell.texts with
    | nil => exact absurd htx (hc himg)
    | cons t ts =>
      cases hh : headers[i]? with
      | none => simp [himg, htx, hh]
      | some hk => simp [himg, htx, hh]

theorem parseRowCells_no_text_error (headers : List (Option String)) :
    ∀ (cells : List SheetCell) (i : Nat) (acc : List (Option String × CellJson)),
      (∀ cell ∈ cells, cell.tag = "td" → cell.images = [] → cell.texts ≠ []) →
      parseRowCells headers i cells acc ≠ .error "IndexError(itertext)" := by
  intro cells
  induction cells with
  | nil =>
    intro i acc _
    simp [parseRowCells]
  | cons cell rest ih =>
    intro i acc hc
    unfold parseRowCells
    by_cases htag : cell.tag ≠ "td"
    · rw [if_pos htag]
      exact ih (i + 1) acc (fun c hc' => hc c (List.mem_cons_of_mem _ hc'))
    · rw [if_neg htag]
      cases hpc : parseSheetCell headers i cell with
      | error e =>
        have hcell := parseSheetCell_no_text_error headers i cell
          (hc cell (List.mem_cons_self _ _) (of_not_not htag))
        rw [hpc] at hcell
        have hne : e ≠ "IndexError(itertext)" := by
          intro hee
          exact hcell (by rw [hee])
        simp only [hpc]
        simp [hne]
      | ok pr =>
        obtain ⟨hk, cj⟩ := pr
        simp only [hpc]
        exact ih (i + 1) (pyDictInsertCell acc hk cj)
          (fun c hc' => hc c (List.mem_cons_of_mem _ hc'))

theorem parseSheetRows_no_text_error (headers : List (Option String)) :
    ∀ rows : List SheetRow,
      (∀ row ∈ rows, ∀ cell ∈ row.cells, cell.tag = "td" → cell.images = [] →
        cell.texts ≠ []) →
      parseSheetRows headers rows ≠ .error "IndexError(itertext)" := by
  intro rows
  induction rows with
  | nil =>
    intro _
    simp [parseSheetRows]
  | cons row rest ih =>
    intro hc
    unfold parseSheetRows
    cases hrc : parseRowCells headers 0 row.cells [] with
    | error e =>
      have hrow := parseRowCells_no_text_error headers row.cells 0 []
        (hc row (List.mem_cons_self _ _))
      rw [hrc] at hrow
      have hne : e ≠ "IndexError(itertext)" := by
        intro hee
        exact hrow (by rw [hee])
      simp only [hrc]
      simp [hne]
    | ok cells =>
      simp only [hrc]
      cases hrs : parseSheetRows headers rest with
      | error e =>
        have hrest := ih (fun r hr => hc r (List.mem_cons_of_mem _ hr))
        rw [hrs] at hrest
        simp only [hrs]
        exact hrest
      | ok rjs =>
        simp only [hrs]
        by_cases hemp : cells.isEmpty = true
        · rw [if_pos hemp]
          simp
        · rw [if_neg hemp]
          simp

theorem parseSheetContents_no_text_error (sheet : SheetTree)
    (hc : ∀ row ∈ sheet.rows, ∀ cell ∈ row.cells,
      cell.tag = "td" → cell.images = [] → cell.texts ≠ []) :
    parseSheetContents sheet ≠ .error "IndexError(itertext)" := by
  unfold parseSheetContents
  cases hcn : getSheetTreeColNames sheet with
  | error e =>
    have he : e = "IndexError(rows)" := by
      unfold getSheetTreeColNames at hcn
      cases hh : sheet.rows.head? with
      | none =>
        rw [hh] at hcn
        exact (Except.error.inj hcn).symm
      | some r =>
        rw [hh] at hcn
        exact absurd hcn (by simp)
    simp [he]
  | ok headers =>
    cases hrs : parseSheetRows headers sheet.rows with
    | error e =>
      have hrows := parseSheetRows_no_text_error headers sheet.rows hc
      rw [hrs] at hrows
      have hne : e ≠ "IndexError(itertext)" := by
        intro hee
        exact hrows (by rw [hee])
      simp only [hrs]
      simp [hne]
    | ok rjs =>
      simp only [hrs]
      simp

theorem findRowTreeGo_no_text_error (index : Nat) (value : String) :
    ∀ rows : List SheetRow,
      (∀ row ∈ rows, ∀ cell ∈ row.cells, cell.tag = "td" → cell.texts ≠ []) →
      findRowTreeGo index value rows ≠ .error "IndexError(itertext)" := by
  intro rows
  induction rows with
  | nil =>
    intro _
    simp [findRowTreeGo]
  | cons row rest ih =>
    intro hc
    unfold findRowTreeGo
    by_cases hlen : index < row.cells.length
    · rw [dif_pos hlen]
      by_cases htag : (row.cells[index]).tag ≠ "td"
      · rw [if_pos htag]
        exact ih (fun r hr => hc r (List.mem_cons_of_mem _ hr))
      · rw [if_neg htag]
        have htexts : (row.cells[index]).texts ≠ [] :=
          hc row (List.mem_cons_self _ _) _ (List.getElem_mem hlen) (of_not_not htag)
        cases htx : (row.cells[index]).texts with
        | nil => exact absurd htx htexts
        | cons t ts =>
          simp only [htx, List.head?_cons]
          by_cases heq : pyLower t = pyLower value
          · rw [if_pos heq]
            simp
          · rw [if_neg heq]
            exact ih (fun r hr => hc r (List.mem_cons_of_mem _ hr))
    · rw [dif_neg hlen]
      exact ih (fun r hr => hc r (List.mem_cons_of_mem _ hr))

theorem findRowTree_no_text_error (sheet : SheetTree) (header value : String)
    (hc : ∀ row ∈ sheet.rows, ∀ cell ∈ row.cells, cell.tag = "td" → cell.texts ≠ []) :
    findRowTree sheet header value ≠ .error "IndexError(itertext)" := by
  unfold findRowTree
  cases hcn : getSheetTreeColNames sheet with
  | error e =>
    have he : e = "IndexError(rows)" := by
      unfold getSheetTreeColNames at hcn
      cases hh : sheet.rows.head? with
      | none =>
        rw [hh] at hcn
        exact (Except.error.inj hcn).symm
      | some r =>
        rw [hh] at hcn
        exact absurd hcn (by simp)
    simp [he]
  | ok headers =>
    exact findRowTreeGo_no_text_error _ value sheet.rows hc

/-- Claim C10 fails as stated for `_find_row_tree`: in the sheet below every
non-image `td` cell has at least one text node, yet the row scan reaches an
image-only `td` cell (which has no text node) at the searched column and
fails with the out-of-range first-text access — the claim's precondition,
which exempts image cells, does not make the access unreachable. -/
theorem C10_counterexample :
    (∀ row ∈ imageCellSheet.rows, ∀ cell ∈ row.cells,
      cell.tag = "td" → cell.images = [] → cell.texts ≠ []) ∧
    findRowTree imageCellSheet "X" "v" = .error "IndexError(itertext)" := by
  refine ⟨?_, rfl⟩
  decide

/-- Claim C10 (amended): `parse_sheet_contents` guards image cells, so under
the precondition that every non-image `td` cell has a text node its
first-text access is unreachable; `_find_row_tree` has no image guard, so it
needs the stronger precondition that every `td` cell, image-containing
included, has a text node; and on a sheet with a textless non-image `td`
cell both operations fail with the out-of-range access instead of returning
a result. -/
theorem C10_amended (sheet : SheetTree) (header value : String) :
    ((∀ row ∈ sheet.rows, ∀ cell ∈ row.cells,
        cell.tag = "td" → cell.images = [] → cell.texts ≠ []) →
      parseSheetContents sheet ≠ .error "IndexError(itertext)") ∧
    ((∀ row ∈ sheet.rows, ∀ cell ∈ row.cells, cell.tag = "td" → cell.texts ≠ []) →
      findRowTree sheet header value ≠ .error "IndexError(itertext)") ∧
    parseSheetContents textlessCellSheet = .error "IndexError(itertext)" ∧
    findRowTree textlessCellSheet "X" "v" = .error "IndexError(itertext)" := by
  refine ⟨?_, ?_, rfl, rfl⟩
  · intro hc
    exact parseSheetContents_no_text_error sheet hc
  · intro hc
    exact findRowTree_no_text_error sheet header value hc

/-- Concrete instantiation of the amended C10 theorem at a fully-texted
sheet. -/
theorem C10_witness :
    parseSheetContents sampleSheet ≠ .error "IndexError(itertext)" ∧
    findRowTree sampleSheet "customer" "Acme" ≠ .error "IndexError(itertext)" :=
  ⟨(C10_amended sampleSheet "customer" "Acme").1 (by decide),
    (C10_amended sampleSheet "customer" "Acme").2.1 (by decide)⟩

end QuipPython
